import Mathlib

/-!
Verification of the request-dispatch, error-classification and
identifier-rule core of the `whatsapp_api_wrapper` client library.

The repository ships only the test suite for `client.py`, `utils.py` and
`exceptions.py`; the module bodies themselves are not present.  Every
definition below is therefore modelled from the specification
(`spec.md`), faithful to its words, and cross-checked against the
observable behaviour recorded in the unit tests.
-/

/-- JSON-compatible values, as carried by the response envelope's
`data` field and by the structured `details` payload of errors. -/
inductive Json where
  | null : Json
  | bool (b : Bool) : Json
  | num (n : Int) : Json
  | str (s : String) : Json
  | arr (xs : List Json) : Json
  | obj (fields : List (String × Json)) : Json

/-- Modelled from the spec: the closed set of error kinds of the
taxonomy (§4.2).  `api` is the base kind `APIError`; the rest are its
disjoint specializations. -/
inductive ErrorClass where
  | api : ErrorClass
  | authentication : ErrorClass
  | authorization : ErrorClass
  | validation : ErrorClass
  | notFound : ErrorClass
  | rateLimit : ErrorClass
  | server : ErrorClass
  | timeout : ErrorClass
  | connection : ErrorClass
  | http : ErrorClass
  | session : ErrorClass
  | message : ErrorClass
deriving DecidableEq

/-- Modelled from the spec: an error of the taxonomy (§4.2), carrying
`message`, an optional machine `code` and an optional structured
`details` payload (`exceptions.py` is absent from the sources). -/
structure WhatsAppAPIError where
  kind : ErrorClass
  message : String
  error_code : Option String
  details : Option Json

/-- Modelled from the spec: constructing a taxonomy error from only a
message, as `WhatsAppAPIError("Simple error")` does: both optional
structured fields stay unset (§4.2, §7). -/
def mkWhatsAppError (kind : ErrorClass) (message : String) : WhatsAppAPIError :=
  ⟨kind, message, none, none⟩

/-- Modelled from the spec: string rendering of any error kind is
exactly its `message` field (§4.2). -/
def WhatsAppAPIError.toDisplay (e : WhatsAppAPIError) : String :=
  e.message

/-- Modelled from the spec: the response envelope contract consumed
from the remote service — `success`, `data?`, `error?`, `code?` (§6);
the dispatcher depends on exactly these four fields. -/
structure Envelope where
  success : Bool
  data : Json
  error : Option String
  code : Option String

/-- Modelled from the spec: what the injected transport can surface to
the dispatcher (§6): a distinguishable timeout exception, a
distinguishable connection exception, any other unexpected exception, or
a response with a status code and a body that either parses into the
envelope shape or does not (not parseable JSON / lacking the `success`
flag). -/
inductive TransportResult where
  | timeout : TransportResult
  | connectionFailure : TransportResult
  | otherException (msg : String) : TransportResult
  | response (status : Nat) (body : Option Envelope) (rawText : String) : TransportResult

/-- Modelled from the spec: the `DispatchOutcome` sum type (§3) —
exactly one variant populated.  A `failure` wraps the typed error the
Python code raises. -/
inductive DispatchOutcome where
  | success (payload : Json) : DispatchOutcome
  | failure (err : WhatsAppAPIError) : DispatchOutcome

/-- Modelled from the spec: HTTP-status fallback classification (§4.1):
401 Authentication, 403 Authorization, 404 NotFound, 422/400 Validation,
429 RateLimit, 5xx Server, anything else the generic HTTP kind. -/
def classifyStatus (status : Nat) : ErrorClass :=
  if status = 401 then ErrorClass.authentication
  else if status = 403 then ErrorClass.authorization
  else if status = 404 then ErrorClass.notFound
  else if status = 422 ∨ status = 400 then ErrorClass.validation
  else if status = 429 then ErrorClass.rateLimit
  else if 500 ≤ status ∧ status < 600 then ErrorClass.server
  else ErrorClass.http

/-- 2xx success statuses. -/
def isSuccessStatus (status : Nat) : Bool :=
  200 ≤ status && status < 300

/-- Modelled from the spec: the classification performed by
`_make_request` (§4.1) on the transport's outcome (`client.py` is absent
from the sources).  Timeout and connection failures map to their kinds;
any other unexpected transport exception is wrapped as the base API
kind; on a received response, an envelope with `success: false` is
authoritative (message from its `error` field, code from its `code`
field) even on a 200 status; a 2xx envelope with `success: true` yields
the parsed `data`; otherwise classification falls back to the HTTP
status. -/
def dispatch (t : TransportResult) : DispatchOutcome :=
  match t with
  | TransportResult.timeout =>
      DispatchOutcome.failure ⟨ErrorClass.timeout, "Request timed out", none, none⟩
  | TransportResult.connectionFailure =>
      DispatchOutcome.failure ⟨ErrorClass.connection, "Connection failed", none, none⟩
  | TransportResult.otherException msg =>
      DispatchOutcome.failure ⟨ErrorClass.api, msg, none, none⟩
  | TransportResult.response status body rawText =>
      match body with
      | some env =>
          if env.success = true then
            if isSuccessStatus status then
              DispatchOutcome.success env.data
            else
              DispatchOutcome.failure ⟨classifyStatus status, rawText, none, none⟩
          else
            DispatchOutcome.failure ⟨ErrorClass.api, env.error.getD rawText, env.code, none⟩
      | none =>
          DispatchOutcome.failure ⟨classifyStatus status, rawText, none, none⟩

/-- The kind of a failure outcome, `none` on success. -/
def outcomeKind (o : DispatchOutcome) : Option ErrorClass :=
  match o with
  | DispatchOutcome.success _ => none
  | DispatchOutcome.failure e => some e.kind

/-- Modelled from the spec: client construction normalizes the base
origin so that it carries no trailing slash (§3); the stored fields
observed by the tests are the credential and the base URL. -/
structure ClientConfig where
  api_key : String
  base_url : String

/-- Strip every trailing `/` from a URL string. -/
def normalize_base_url (s : String) : String :=
  String.mk ((s.data.reverse.dropWhile (fun c => c = '/')).reverse)

/-- Modelled from the spec: `WhatsAppAPI.__init__` stores the
credential and the normalized base origin (§3, §4.1). -/
def initClient (api_key base_url : String) : ClientConfig :=
  ⟨api_key, normalize_base_url base_url⟩

/-- Modelled from the spec: `dispatch` composes the absolute URL as
origin + path (§4.1). -/
def composeUrl (c : ClientConfig) (path : String) : String :=
  c.base_url ++ path

/-- Whether the string's last character is `/`. -/
def endsWithSlash (s : String) : Bool :=
  decide (s.data.reverse.head? = some '/')

/-! ## Identifier rules (`utils.py`, absent from the sources) -/

/-- The individual-contact domain suffix `@c.us` (§4.3). -/
def phoneSuffixChars : List Char := ['@', 'c', '.', 'u', 's']

/-- The group domain suffix `@g.us` (§4.3). -/
def groupSuffixChars : List Char := ['@', 'g', '.', 'u', 's']

/-- If `cs` ends with `suf`, the part before it; otherwise `none`. -/
def dropSuffix (cs suf : List Char) : Option (List Char) :=
  if cs.drop (cs.length - suf.length) = suf then
    some (cs.take (cs.length - suf.length))
  else none

/-- Strip one leading `+` when present. -/
def stripPlus (cs : List Char) : List Char :=
  if cs.head? = some '+' then cs.tail else cs

/-- A bare phone-digit string: all digits, 7 to 15 of them (§4.3). -/
def digitsOk (ds : List Char) : Bool :=
  ds.all Char.isDigit && decide (7 ≤ ds.length) && decide (ds.length ≤ 15)

/-- Modelled from the spec: `validate_phone_number(s)` is true iff `s`
matches `^\+?\d{7,15}@c\.us$` — optional leading `+`, 7–15 digits,
mandatory `@c.us` suffix (§4.3). -/
def validate_phone_number (s : String) : Bool :=
  match dropSuffix s.data phoneSuffixChars with
  | some loc => digitsOk (stripPlus loc)
  | none => false

/-- The local part of a group id: `digits-digits`, both segments
non-empty and purely numeric (§4.3). -/
def groupLocalOk (loc : List Char) : Bool :=
  let a := loc.takeWhile Char.isDigit
  match loc.dropWhile Char.isDigit with
  | '-' :: t => decide (1 ≤ a.length) && t.all Char.isDigit && decide (1 ≤ t.length)
  | _ => false

/-- Modelled from the spec: `validate_group_id(s)` is true iff `s`
matches `^\d+-\d+@g\.us$` (§4.3). -/
def validate_group_id (s : String) : Bool :=
  match dropSuffix s.data groupSuffixChars with
  | some loc => groupLocalOk loc
  | none => false

/-- Modelled from the spec: `format_phone_number(raw)` — strip a
leading `+`; if already suffixed with `@c.us` return it unchanged after
confirming the digit portion is 7–15 digits; else require the bare
digit string to be 7–15 digits and append `@c.us`; any other input is a
`ValueError`, modelled as `none` (§4.3). -/
def format_phone_number (s : String) : Option String :=
  let cs := stripPlus s.data
  match dropSuffix cs phoneSuffixChars with
  | some loc =>
      if digitsOk loc then some (String.mk (loc ++ phoneSuffixChars)) else none
  | none =>
      if digitsOk cs then some (String.mk (cs ++ phoneSuffixChars)) else none

/-- `individual` / `group` classification of a parsed contact id. -/
inductive ContactType where
  | individual : ContactType
  | group : ContactType
deriving DecidableEq

/-- Modelled from the spec: the record returned by `parse_contact_id` —
a `type`, a `number` field for individuals, a `group_id` field for
groups, and the bare `domain` (§4.3; tests read keys `type`, `number`,
`group_id`, `domain`). -/
structure ParsedContact where
  ctype : ContactType
  number : Option String
  group_id : Option String
  domain : String
deriving DecidableEq

/-- The local individual pattern accepted by `parse_contact_id`: an
optional leading `+`, then at least one digit (§4.3). -/
def localIndividualOk (loc : List Char) : Bool :=
  let ds := stripPlus loc
  ds.all Char.isDigit && decide (1 ≤ ds.length)

/-- Modelled from the spec: `parse_contact_id(s)` splits a contact id
on its domain suffix; a `ValueError` (empty input, no `@`, local part
fitting neither the individual digit pattern nor the group
hyphen-pattern) is modelled as `none` (§4.3). -/
def parse_contact_id (s : String) : Option ParsedContact :=
  match dropSuffix s.data phoneSuffixChars with
  | some loc =>
      if localIndividualOk loc then
        some ⟨ContactType.individual, some (String.mk loc), none, "c.us"⟩
      else none
  | none =>
      match dropSuffix s.data groupSuffixChars with
      | some loc =>
          if groupLocalOk loc then
            some ⟨ContactType.group, none, some (String.mk loc), "g.us"⟩
          else none
      | none => none

/-- Separator characters discarded by phone-number cleaning: `+`,
space, parentheses, dot, hyphen (§4.3). -/
def separatorChar (c : Char) : Bool :=
  c = '+' || c = ' ' || c = '(' || c = ')' || c = '.' || c = '-'

/-- Modelled from the spec: `clean_phone_number(s)` keeps only the
digits of `s`, discarding separators, and returns the empty string —
never an error — when the input contains characters (such as letters)
that are neither digits nor separators, or contains no digits at all
(§4.3). -/
def clean_phone_number (s : String) : String :=
  if s.data.all (fun c => c.isDigit || separatorChar c) then
    String.mk (s.data.filter Char.isDigit)
  else ""

/-! ## Theorems -/

/-- Claim C1: for every transport response whose body parses as JSON
with `success` equal to `false`, `_make_request` yields a failure of the
base API kind whose message is the parsed `error` field and whose code
is the parsed `code` field, regardless of the HTTP status code: the
API-level failure flag takes precedence over status-based
classification even on a 200 status. -/
theorem c1_api_flag_precedence (status : Nat) (d : Json) (e : String)
    (c : Option String) (raw : String) :
    dispatch (TransportResult.response status (some ⟨false, d, some e, c⟩) raw)
      = DispatchOutcome.failure ⟨ErrorClass.api, e, c, none⟩ := rfl

/-- Claim C2: for every transport response with a 2xx HTTP status whose
body parses as JSON with `success` equal to `true`, `_make_request`
returns success whose payload is exactly the parsed `data` field of the
response envelope. -/
theorem c2_success_payload (status : Nat) (h1 : 200 ≤ status) (h2 : status < 300)
    (d : Json) (e : Option String) (c : Option String) (raw : String) :
    dispatch (TransportResult.response status (some ⟨true, d, e, c⟩) raw)
      = DispatchOutcome.success d := by
  have hs : isSuccessStatus status = true := by
    simp only [isSuccessStatus, Bool.and_eq_true, decide_eq_true_eq]
    omega
  simp [dispatch, hs]

/-- Witness for C2 at the spec's literal scenario: status 200,
`success: true`, payload the parsed data. -/
theorem c2_success_payload_witness :
    dispatch (TransportResult.response 200
        (some ⟨true, Json.obj [("sessionId", Json.str "s1")], none, none⟩) "")
      = DispatchOutcome.success (Json.obj [("sessionId", Json.str "s1")]) :=
  c2_success_payload 200 (by decide) (by decide)
    (Json.obj [("sessionId", Json.str "s1")]) none none ""

/-- Claim C3: when the body is not parseable JSON (or lacks the
`success` flag), the failure is classified by HTTP status: 401
Authentication, 403 Authorization, 404 NotFound, 422/400 Validation,
429 RateLimit, any 5xx Server, and any other non-2xx the generic HTTP
kind; in particular a 500 response with no parseable body yields a
Server-kind failure. -/
theorem c3_status_classification :
    (∀ raw : String, dispatch (TransportResult.response 401 none raw)
        = DispatchOutcome.failure ⟨ErrorClass.authentication, raw, none, none⟩)
  ∧ (∀ raw : String, dispatch (TransportResult.response 403 none raw)
        = DispatchOutcome.failure ⟨ErrorClass.authorization, raw, none, none⟩)
  ∧ (∀ raw : String, dispatch (TransportResult.response 404 none raw)
        = DispatchOutcome.failure ⟨ErrorClass.notFound, raw, none, none⟩)
  ∧ (∀ raw : String, dispatch (TransportResult.response 422 none raw)
        = DispatchOutcome.failure ⟨ErrorClass.validation, raw, none, none⟩)
  ∧ (∀ raw : String, dispatch (TransportResult.response 400 none raw)
        = DispatchOutcome.failure ⟨ErrorClass.validation, raw, none, none⟩)
  ∧ (∀ raw : String, dispatch (TransportResult.response 429 none raw)
        = DispatchOutcome.failure ⟨ErrorClass.rateLimit, raw, none, none⟩)
  ∧ (∀ (status : Nat) (raw : String), 500 ≤ status → status < 600 →
        dispatch (TransportResult.response status none raw)
          = DispatchOutcome.failure ⟨ErrorClass.server, raw, none, none⟩)
  ∧ (∀ (status : Nat) (raw : String), ¬ (200 ≤ status ∧ status < 300) →
        status ≠ 400 → status ≠ 401 → status ≠ 403 → status ≠ 404 →
        status ≠ 422 → status ≠ 429 → ¬ (500 ≤ status ∧ status < 600) →
        dispatch (TransportResult.response status none raw)
          = DispatchOutcome.failure ⟨ErrorClass.http, raw, none, none⟩) := by
  refine ⟨fun raw => rfl, fun raw => rfl, fun raw => rfl, fun raw => rfl,
    fun raw => rfl, fun raw => rfl, ?_, ?_⟩
  · intro status raw h1 h2
    simp only [dispatch, classifyStatus]
    split_ifs <;> first | rfl | (exfalso; omega)
  · intro status raw h2xx h400 h401 h403 h404 h422 h429 h5xx
    simp only [dispatch, classifyStatus]
    split_ifs <;> first | rfl | (exfalso; omega)

/-- Witness for C3 at the spec's literal scenario: a 500 response with
no parseable body yields a Server-kind failure; a 418 response yields
the generic HTTP kind. -/
theorem c3_status_classification_witness :
    dispatch (TransportResult.response 500 none "Server error")
      = DispatchOutcome.failure ⟨ErrorClass.server, "Server error", none, none⟩
  ∧ dispatch (TransportResult.response 418 none "teapot")
      = DispatchOutcome.failure ⟨ErrorClass.http, "teapot", none, none⟩ :=
  ⟨c3_status_classification.2.2.2.2.2.2.1 500 "Server error" (by decide) (by decide),
   c3_status_classification.2.2.2.2.2.2.2 418 "teapot" (by decide) (by decide)
     (by decide) (by decide) (by decide) (by decide) (by decide) (by decide)⟩

/-- Claim C4: a transport-level timeout yields a Timeout-kind failure,
a transport-level connection failure yields a Connection-kind failure,
and no invocation of the dispatcher lets an unclassified exception
propagate: every transport outcome (including any other unexpected
exception, mapped to the base API kind) is classified into exactly one
outcome variant. -/
theorem c4_timeout_connection_classified :
    outcomeKind (dispatch TransportResult.timeout) = some ErrorClass.timeout
  ∧ outcomeKind (dispatch TransportResult.connectionFailure) = some ErrorClass.connection
  ∧ (∀ msg : String,
      outcomeKind (dispatch (TransportResult.otherException msg)) = some ErrorClass.api)
  ∧ (∀ t : TransportResult,
      (∃ p, dispatch t = DispatchOutcome.success p)
      ∨ (∃ e, dispatch t = DispatchOutcome.failure e)) := by
  refine ⟨rfl, rfl, fun msg => rfl, fun t => ?_⟩
  cases h : dispatch t with
  | success p => exact Or.inl ⟨p, rfl⟩
  | failure e => exact Or.inr ⟨e, rfl⟩

/-! ### Helper lemmas on suffix splitting -/

/-- `dropSuffix` succeeds exactly on lists ending in `suf`, returning
the part before the suffix. -/
theorem dropSuffix_eq_some (cs suf loc : List Char) :
    dropSuffix cs suf = some loc ↔ cs = loc ++ suf := by
  constructor
  · intro h
    unfold dropSuffix at h
    by_cases hc : cs.drop (cs.length - suf.length) = suf
    · rw [if_pos hc] at h
      obtain rfl : cs.take (cs.length - suf.length) = loc := Option.some_inj.mp h
      conv_lhs => rw [← List.take_append_drop (cs.length - suf.length) cs]
      rw [hc]
    · rw [if_neg hc] at h
      exact absurd h (by simp)
  · intro h
    subst h
    have hn : (loc ++ suf).length - suf.length = loc.length := by
      simp [List.length_append]
    unfold dropSuffix
    rw [hn, List.drop_left]
    simp [List.take_left]

/-- Appending `String.mk` values concatenates the character lists. -/
theorem string_mk_append (a b : List Char) :
    String.mk a ++ String.mk b = String.mk (a ++ b) := rfl

/-- Stripping a leading `+` from a list headed by `+`. -/
theorem stripPlus_cons_plus (t : List Char) : stripPlus ('+' :: t) = t := by
  simp [stripPlus]

/-- `stripPlus` keeps a list whose head is not `+`. -/
theorem stripPlus_of_ne (cs : List Char) (h : ¬ cs.head? = some '+') :
    stripPlus cs = cs := by
  simp [stripPlus, h]

/-- A digit character is not `+`. -/
theorem digit_ne_plus {d : Char} (h : d.isDigit = true) : d ≠ '+' := by
  intro e
  rw [e] at h
  exact absurd h (by decide)

/-- The spec's individual-contact pattern `^\+?\d{7,15}@c\.us$` (§4.3,
§8), stated declaratively: an optional leading `+`, a run of 7 to 15
digits, then the `@c.us` suffix. -/
def matchesPhonePattern (s : String) : Prop :=
  ∃ opt ds : List Char,
    (opt = [] ∨ opt = ['+'])
    ∧ (∀ c ∈ ds, c.isDigit = true)
    ∧ 7 ≤ ds.length ∧ ds.length ≤ 15
    ∧ s.data = opt ++ (ds ++ phoneSuffixChars)

/-- Claim C5: `validate_phone_number(s)` returns true for every string
matching `^\\+?\\d{7,15}@c\\.us$` — 7 to 15 digits, optional leading `+`,
mandatory `@c.us` suffix — and false for every other string (empty,
wrong suffix, wrong digit count, group suffix `@g.us`); the second
conjunct evaluates the spec-modelled function at the 15-digit id that
the repository's own unit test expects to be rejected as too long. -/
theorem c5_validate_phone_regex :
    (∀ s : String, validate_phone_number s = true ↔ matchesPhonePattern s)
  ∧ validate_phone_number "123456789012345@c.us" = true := by
  refine ⟨fun s => ⟨?_, ?_⟩, by decide⟩
  · intro h
    unfold validate_phone_number at h
    cases hd : dropSuffix s.data phoneSuffixChars with
    | none => rw [hd] at h; exact absurd h (by simp)
    | some loc =>
      rw [hd] at h
      change digitsOk (stripPlus loc) = true at h
      have hs : s.data = loc ++ phoneSuffixChars := (dropSuffix_eq_some _ _ _).mp hd
      by_cases hp : loc.head? = some '+'
      · obtain ⟨t, rfl⟩ : ∃ t, loc = '+' :: t := by
          cases loc with
          | nil => simp at hp
          | cons a t =>
            simp at hp
            exact ⟨t, by rw [hp]⟩
        rw [stripPlus_cons_plus] at h
        simp only [digitsOk, Bool.and_eq_true, decide_eq_true_eq, List.all_eq_true] at h
        exact ⟨['+'], t, Or.inr rfl, h.1.1, h.1.2, h.2, by simpa using hs⟩
      · rw [stripPlus_of_ne _ hp] at h
        simp only [digitsOk, Bool.and_eq_true, decide_eq_true_eq, List.all_eq_true] at h
        exact ⟨[], loc, Or.inl rfl, h.1.1, h.1.2, h.2, by simpa using hs⟩
  · rintro ⟨opt, ds, hopt, hdig, h7, h15, hs⟩
    have hne : ds ≠ [] := by
      intro e; rw [e] at h7; simp at h7
    obtain ⟨d, t, rfl⟩ : ∃ d t, ds = d :: t := by
      cases ds with
      | nil => exact absurd rfl hne
      | cons d t => exact ⟨d, t, rfl⟩
    have hd0 : d.isDigit = true := hdig d (by simp)
    have hdok : digitsOk (d :: t) = true := by
      simp only [digitsOk, Bool.and_eq_true, decide_eq_true_eq, List.all_eq_true]
      exact ⟨⟨hdig, h7⟩, h15⟩
    rcases hopt with rfl | rfl
    · have hdrop : dropSuffix s.data phoneSuffixChars = some (d :: t) := by
        rw [dropSuffix_eq_some]
        simpa using hs
      unfold validate_phone_number
      rw [hdrop]
      change digitsOk (stripPlus (d :: t)) = true
      rw [stripPlus_of_ne]
      · exact hdok
      · simp
        intro e
        exact absurd e (digit_ne_plus hd0)
    · have hdrop : dropSuffix s.data phoneSuffixChars = some ('+' :: d :: t) := by
        rw [dropSuffix_eq_some]
        simpa using hs
      unfold validate_phone_number
      rw [hdrop]
      change digitsOk (stripPlus ('+' :: d :: t)) = true
      rw [stripPlus_cons_plus]
      exact hdok

/-- Witness for C5: the regex characterization applied at a concrete
valid 10-digit contact id. -/
theorem c5_validate_phone_regex_witness :
    validate_phone_number "1234567890@c.us" = true :=
  (c5_validate_phone_regex.1 "1234567890@c.us").mpr
    ⟨[], ['1', '2', '3', '4', '5', '6', '7', '8', '9', '0'], Or.inl rfl,
      by decide, by decide, by decide, by decide⟩

/-- Claim C6: `parse_contact_id` round-trips — for every valid
individual contact id the result has individual type and a `number`
field with `number ++ "@c.us"` equal to the input, and for every valid
group id the result has group type and a `group_id` field with
`group_id ++ "@g.us"` equal to the input. -/
theorem c6_parse_round_trip (s : String) :
    (validate_phone_number s = true →
      ∃ num : String,
        parse_contact_id s = some ⟨ContactType.individual, some num, none, "c.us"⟩
        ∧ num ++ "@c.us" = s)
  ∧ (validate_group_id s = true →
      ∃ gid : String,
        parse_contact_id s = some ⟨ContactType.group, none, some gid, "g.us"⟩
        ∧ gid ++ "@g.us" = s) := by
  constructor
  · intro h
    unfold validate_phone_number at h
    cases hd : dropSuffix s.data phoneSuffixChars with
    | none => rw [hd] at h; exact absurd h (by simp)
    | some loc =>
      rw [hd] at h
      change digitsOk (stripPlus loc) = true at h
      have hs : s.data = loc ++ phoneSuffixChars := (dropSuffix_eq_some _ _ _).mp hd
      have hloc : localIndividualOk loc = true := by
        simp only [digitsOk, Bool.and_eq_true, decide_eq_true_eq] at h
        simp only [localIndividualOk, Bool.and_eq_true, decide_eq_true_eq]
        exact ⟨h.1.1, by omega⟩
      refine ⟨String.mk loc, ?_, ?_⟩
      · unfold parse_contact_id
        rw [hd]
        change (if localIndividualOk loc then _ else _) = _
        rw [if_pos hloc]
      · show String.mk loc ++ String.mk phoneSuffixChars = s
        rw [string_mk_append, ← hs]
  · intro h
    unfold validate_group_id at h
    cases hg : dropSuffix s.data groupSuffixChars with
    | none => rw [hg] at h; exact absurd h (by simp)
    | some loc =>
      rw [hg] at h
      change groupLocalOk loc = true at h
      have hs : s.data = loc ++ groupSuffixChars := (dropSuffix_eq_some _ _ _).mp hg
      have hnone : dropSuffix s.data phoneSuffixChars = none := by
        cases hp : dropSuffix s.data phoneSuffixChars with
        | none => rfl
        | some loc2 =>
          exfalso
          have hs2 : s.data = loc2 ++ phoneSuffixChars := (dropSuffix_eq_some _ _ _).mp hp
          have heq : loc2 ++ phoneSuffixChars = loc ++ groupSuffixChars := by
            rw [← hs2, hs]
          have hlen : loc2.length = loc.length := by
            have := congrArg List.length heq
            simp only [List.length_append, phoneSuffixChars, groupSuffixChars,
              List.length_cons, List.length_nil] at this
            omega
          have hsuf : phoneSuffixChars = groupSuffixChars :=
            (List.append_inj heq hlen).2
          exact absurd hsuf (by decide)
      refine ⟨String.mk loc, ?_, ?_⟩
      · unfold parse_contact_id
        rw [hnone, hg]
        change (if groupLocalOk loc then _ else _) = _
        rw [if_pos h]
      · show String.mk loc ++ String.mk groupSuffixChars = s
        rw [string_mk_append, ← hs]

/-- Witness for C6 at the unit tests' concrete ids. -/
theorem c6_parse_round_trip_witness :
    (∃ num : String,
      parse_contact_id "1234567890@c.us"
        = some ⟨ContactType.individual, some num, none, "c.us"⟩
      ∧ num ++ "@c.us" = "1234567890@c.us")
  ∧ (∃ gid : String,
      parse_contact_id "123456789-987654321@g.us"
        = some ⟨ContactType.group, none, some gid, "g.us"⟩
      ∧ gid ++ "@g.us" = "123456789-987654321@g.us") :=
  ⟨(c6_parse_round_trip "1234567890@c.us").1 (by decide),
   (c6_parse_round_trip "123456789-987654321@g.us").2 (by decide)⟩

theorem format_phone_number_shape (x y : String)
    (h : format_phone_number x = some y) :
    ∃ ds : List Char, digitsOk ds = true ∧ y = String.mk (ds ++ phoneSuffixChars) := by
  unfold format_phone_number at h
  cases hd : dropSuffix (stripPlus x.data) phoneSuffixChars with
  | some loc =>
    simp only [hd] at h
    by_cases hok : digitsOk loc = true
    · rw [if_pos hok] at h
      exact ⟨loc, hok, (Option.some_inj.mp h).symm⟩
    · rw [if_neg hok] at h
      exact absurd h (by simp)
  | none =>
    simp only [hd] at h
    by_cases hok : digitsOk (stripPlus x.data) = true
    · rw [if_pos hok] at h
      exact ⟨stripPlus x.data, hok, (Option.some_inj.mp h).symm⟩
    · rw [if_neg hok] at h
      exact absurd h (by simp)

theorem format_phone_number_fixed (ds : List Char)
    (hok : digitsOk ds = true) :
    format_phone_number (String.mk (ds ++ phoneSuffixChars))
      = some (String.mk (ds ++ phoneSuffixChars)) := by
  obtain ⟨d, t, rfl⟩ : ∃ d t, ds = d :: t := by
    cases ds with
    | nil => exact absurd hok (by decide)
    | cons d t => exact ⟨d, t, rfl⟩
  have hd0 : d.isDigit = true := by
    simp only [digitsOk, Bool.and_eq_true, decide_eq_true_eq, List.all_eq_true] at hok
    exact hok.1.1 d (by simp)
  have hstrip : stripPlus ((d :: t) ++ phoneSuffixChars) = (d :: t) ++ phoneSuffixChars := by
    apply stripPlus_of_ne
    simp
    intro e
    exact absurd e (digit_ne_plus hd0)
  have hdrop : dropSuffix ((d :: t) ++ phoneSuffixChars) phoneSuffixChars
      = some (d :: t) := (dropSuffix_eq_some _ _ _).mpr rfl
  unfold format_phone_number
  simp only [hstrip, hdrop]
  rw [if_pos hok]

/-- Claim C7: `format_phone_number` is idempotent — whenever it
succeeds, running it again on its output returns that output unchanged;
in particular an input already carrying the `@c.us` suffix with a valid
digit portion is returned unchanged. -/
theorem c7_format_idempotent :

    (∀ x y : String, format_phone_number x = some y → format_phone_number y = some y)
  ∧ (∀ ds : List Char, digitsOk ds = true →
      format_phone_number (String.mk (ds ++ phoneSuffixChars))
        = some (String.mk (ds ++ phoneSuffixChars))) := by
  refine ⟨?_, format_phone_number_fixed⟩
  intro x y h
  obtain ⟨ds, hok, rfl⟩ := format_phone_number_shape x y h
  exact format_phone_number_fixed ds hok

/-- Witness for C7: idempotence applied at the concrete already
formatted id of the unit tests. -/
theorem c7_format_idempotent_witness :
    format_phone_number "1234567890@c.us" = some "1234567890@c.us" :=
  c7_format_idempotent.1 "1234567890" "1234567890@c.us" (by decide)

/-- Claim C8: `clean_phone_number` is total (a plain function, never
an error): its output consists of digits only — separators `+`, space,
parentheses, dot, hyphen are stripped — and it returns the empty string
whenever the input contains a character that is neither a digit nor a
separator (such as a letter) or contains no digit at all; in particular
it maps `"+91 12345 67890"` to `"911234567890"` and `"abc"` to `""`. -/
theorem c8_clean_phone_number :
    (∀ s : String, ∀ c ∈ (clean_phone_number s).data, c.isDigit = true)
  ∧ (∀ s : String,
      (∃ c ∈ s.data, (c.isDigit || separatorChar c) = false) →
      clean_phone_number s = "")
  ∧ clean_phone_number "+91 12345 67890" = "911234567890"
  ∧ clean_phone_number "abc" = ""
  ∧ clean_phone_number "" = "" := by
  refine ⟨?_, ?_, by decide, by decide, rfl⟩
  · intro s c hc
    unfold clean_phone_number at hc
    by_cases hall : s.data.all (fun c => c.isDigit || separatorChar c) = true
    · rw [if_pos hall] at hc
      have hm : c ∈ s.data.filter Char.isDigit := hc
      exact (List.mem_filter.mp hm).2
    · rw [if_neg hall] at hc
      simp at hc
  · intro s h
    obtain ⟨c, hc, hfalse⟩ := h
    have hall : ¬ s.data.all (fun c => c.isDigit || separatorChar c) = true := by
      intro hall
      have hp := List.all_eq_true.mp hall c hc
      rw [hfalse] at hp
      exact Bool.false_ne_true hp
    unfold clean_phone_number
    rw [if_neg hall]

/-- Witness for C8: the letters-make-it-empty conjunct applied at the
unit tests' mixed input. -/
theorem c8_clean_phone_number_witness :
    clean_phone_number "123abc456" = "" :=
  c8_clean_phone_number.2.1 "123abc456" (by decide)

theorem head?_dropWhile_eq_false (p : Char → Bool) (l : List Char) (x : Char)
    (h : (l.dropWhile p).head? = some x) : p x = false := by
  induction l with
  | nil => simp [List.dropWhile] at h
  | cons a t ih =>
    rw [List.dropWhile_cons] at h
    by_cases hp : p a = true
    · rw [if_pos hp] at h
      exact ih h
    · rw [if_neg hp] at h
      simp at h
      subst h
      cases hpa : p a with
      | false => rfl
      | true => exact absurd hpa hp

/-- Claim C9: for every base URL supplied at construction, the stored
base origin never ends with `/` — a trailing slash is stripped — and
that stored origin is exactly the one used to compose every dispatched
request's absolute URL; the trailing-slash test case of the unit tests
is evaluated concretely. -/
theorem c9_base_url_no_trailing_slash :
    (∀ api_key url : String,
      endsWithSlash (initClient api_key url).base_url = false
      ∧ ∀ path : String,
          composeUrl (initClient api_key url) path
            = (initClient api_key url).base_url ++ path)
  ∧ (initClient "test-key" "http://localhost:3000/").base_url
      = "http://localhost:3000" := by
  refine ⟨fun api_key url => ⟨?_, fun path => rfl⟩, by decide⟩
  unfold initClient normalize_base_url endsWithSlash
  rw [decide_eq_false_iff_not]
  intro hcontra
  have h2 : ((url.data.reverse.dropWhile (fun c => decide (c = '/'))).head?)
      = some '/' := by
    simpa using hcontra
  have h3 := head?_dropWhile_eq_false _ _ _ h2
  simp at h3

/-- Claim C10: constructing any error of the taxonomy with only a
message leaves both optional structured fields unset — `error_code` and
`details` are `none`, never defaulted to empty strings or maps — and
the display string is the message itself. -/
theorem c10_error_optional_fields_unset (kind : ErrorClass) (msg : String) :
    (mkWhatsAppError kind msg).error_code = none
  ∧ (mkWhatsAppError kind msg).details = none
  ∧ (mkWhatsAppError kind msg).toDisplay = msg :=
  ⟨rfl, rfl, rfl⟩
